import Mathlib

/-!
Shallow embedding of the scoring harness in `scripts/score.ts` of the
`namessake` repository, together with proofs of the specification claims
about it.

Modelling conventions:
* JavaScript strings are Lean `String`s; the candidate's raw output
  (`unknown` in TypeScript) is modelled as `Option (List String)`:
  `none` stands for a non-array value, `some l` for an array whose
  elements are given after the `String(value)` conversion.
* `Set` objects built from id lists are modelled by list membership
  (`List.contains`), which coincides with `Set.has` on the same elements.
* JavaScript numbers used by the metric formulas are modelled as `ℚ`;
  all counters are `Nat`.
* The asynchronous race in `withTimeout` is modelled by an explicit
  description of how the candidate's promise behaves
  (`CandidateBehavior`), with times in whole milliseconds.
-/

namespace Namessake

/-- The dataset identifiers of `score.ts` (`"small" | "large"`). -/
inductive Dataset
  | small
  | large
deriving DecidableEq

/-- String form of a dataset identifier, as interpolated by `score.ts`. -/
def Dataset.toStr : Dataset → String
  | .small => "small"
  | .large => "large"

/-- `interface TestCase` of `score.ts`. -/
structure TestCase where
  id : String
  dataset : Dataset
  query : String
  expectedIds : List String
  falsePositiveIds : List String
  tags : List String
  notes : String

/-- `interface TestSuite` of `score.ts` (`visibility` is the literal `"public"`). -/
structure TestSuite where
  name : String
  dataset : Dataset
  visibility : String
  seed : Int
  cases : List TestCase

/-- JavaScript `String.prototype.trim`: remove leading and trailing
whitespace characters. (Core's `String.trim` is defined by well-founded
recursion on byte positions, which the kernel cannot evaluate; this list
form computes and has the same observable behavior on the characters the
harness handles.) -/
def trimStr (s : String) : String :=
  ⟨List.reverse
    ((List.reverse (s.data.dropWhile Char.isWhitespace)).dropWhile
      Char.isWhitespace)⟩

/-- Loop body of `toUniqueIds` (score.ts lines 130–148): the `seen` set is
modelled as the list of ids already emitted, and the `out` array by the
returned list. An element is trimmed, then skipped when it is empty or
already seen. -/
def toUniqueIdsAux (seen : List String) : List String → List String
  | [] => []
  | v :: rest =>
    let id := trimStr v
    if id == "" || seen.contains id then
      toUniqueIdsAux seen rest
    else
      id :: toUniqueIdsAux (id :: seen) rest

/-- `toUniqueIds` of `score.ts`: a non-array (`none`) normalizes to `[]`;
an array is trimmed, emptied of blank strings and deduplicated keeping
first occurrences. -/
def toUniqueIds : Option (List String) → List String
  | none => []
  | some raw => toUniqueIdsAux [] raw

/-- `percentile` of `score.ts` (lines 150–157): empty input gives `0`;
otherwise the value of the ascending sort at index
`floor((length − 1) * pct)`, with the out-of-range guard `?? 0`. -/
def percentile (values : List ℚ) (pct : ℚ) : ℚ :=
  if values.length = 0 then 0
  else
    let sorted := List.insertionSort (· ≤ ·) values
    let idx := (⌊((sorted.length : ℚ) - 1) * pct⌋).toNat
    sorted.getD idx 0

/-- How the candidate's `search(query)` promise behaves for one call:
it resolves with a raw value after `timeMs` milliseconds, rejects with a
message after `timeMs` milliseconds, or never settles. -/
inductive CandidateBehavior where
  | resolves (value : Option (List String)) (timeMs : Nat)
  | rejects (msg : String) (timeMs : Nat)
  | hangs

/-- The message of the `Error` thrown by the deadline timer in
`withTimeout` (score.ts line 166). -/
def timeoutMessage (timeoutMs : Nat) : String :=
  "search timed out after " ++ toString timeoutMs ++ "ms"

/-- `withTimeout` of `score.ts` (lines 163–176): the race between the
candidate's promise and the deadline timer. The candidate wins only by
settling strictly before the deadline fires. -/
def withTimeout (b : CandidateBehavior) (timeoutMs : Nat) :
    Except String (Option (List String)) :=
  match b with
  | .resolves v t =>
    if t < timeoutMs then .ok v else .error (timeoutMessage timeoutMs)
  | .rejects m t =>
    if t < timeoutMs then .error m else .error (timeoutMessage timeoutMs)
  | .hangs => .error (timeoutMessage timeoutMs)

/-- The `try`/`catch` around the candidate call (score.ts lines 314–319):
on success the raw value is normalized, on any error the returned ids are
`[]` and the error message is recorded. Returns
`(returnedIds, runtimeError)`. -/
def runSearch (b : CandidateBehavior) (timeoutMs : Nat) :
    List String × Option String :=
  match withTimeout b timeoutMs with
  | .ok raw => (toUniqueIds raw, none)
  | .error msg => ([], some msg)

/-- The per-case classification record (score.ts lines 324–330). -/
structure Classification where
  hitIds : List String
  missingIds : List String
  fpHits : List String
  invalidIds : List String
  extrasUnscored : List String

/-- The five classification filters of score.ts lines 324–330.
`validIds` is the list of ids of the dataset rows (the key set of `byId`). -/
def classify (tc : TestCase) (validIds : List String)
    (returnedIds : List String) : Classification :=
  { hitIds := tc.expectedIds.filter (fun id => returnedIds.contains id)
    missingIds := tc.expectedIds.filter (fun id => !returnedIds.contains id)
    fpHits := returnedIds.filter (fun id => tc.falsePositiveIds.contains id)
    invalidIds := returnedIds.filter (fun id => !validIds.contains id)
    extrasUnscored := returnedIds.filter (fun id =>
      validIds.contains id
        && !tc.expectedIds.contains id
        && !tc.falsePositiveIds.contains id) }

/-- The pass predicate of score.ts lines 339–344. -/
def casePass (cl : Classification) (runtimeError : Option String) : Bool :=
  cl.missingIds.length == 0
    && cl.fpHits.length == 0
    && cl.extrasUnscored.length == 0
    && cl.invalidIds.length == 0
    && runtimeError.isNone

/-- The run-level accumulators of score.ts lines 297–303. -/
structure Acc where
  expectedTotal : Nat
  expectedHits : Nat
  listedFalsePositiveCount : Nat
  unexpectedExtraCount : Nat
  invalidIdCount : Nat
  returnedTotal : Nat
  passCases : Nat

/-- The accumulators' initial values (all zero). -/
def Acc.init : Acc := ⟨0, 0, 0, 0, 0, 0, 0⟩

/-- One iteration of the case loop of `main` (score.ts lines 306–367),
without the reporting: run the candidate under the timeout, classify, and
add the per-case counts to the accumulators. -/
def stepCase (validIds : List String) (timeoutMs : Nat) (acc : Acc)
    (tc : TestCase) (b : CandidateBehavior) : Acc :=
  let res := runSearch b timeoutMs
  let returnedIds := res.1
  let runtimeError := res.2
  let cl := classify tc validIds returnedIds
  { expectedTotal := acc.expectedTotal + tc.expectedIds.length
    expectedHits := acc.expectedHits + cl.hitIds.length
    listedFalsePositiveCount := acc.listedFalsePositiveCount + cl.fpHits.length
    unexpectedExtraCount := acc.unexpectedExtraCount + cl.extrasUnscored.length
    invalidIdCount := acc.invalidIdCount + cl.invalidIds.length
    returnedTotal := acc.returnedTotal + returnedIds.length
    passCases := acc.passCases + (if casePass cl runtimeError then 1 else 0) }

/-- The case loop of `main`: each case is paired with the behavior of the
candidate's `search` call for its query. -/
def runCases (validIds : List String) (timeoutMs : Nat) (acc : Acc) :
    List (TestCase × CandidateBehavior) → Acc
  | [] => acc
  | (tc, b) :: rest =>
    runCases validIds timeoutMs (stepCase validIds timeoutMs acc tc b) rest

/-- `PENALTY_LISTED_FP` of score.ts. -/
def PENALTY_LISTED_FP : ℚ := 0.02

/-- `PENALTY_UNEXPECTED_EXTRA` of score.ts. -/
def PENALTY_UNEXPECTED_EXTRA : ℚ := 0.05

/-- `recall` (score.ts line 375). (`recall` is a Mathlib command token, so
the finalization formulas live in the `Acc` namespace.) -/
def Acc.recall (acc : Acc) : ℚ :=
  if acc.expectedTotal = 0 then 100
  else ((acc.expectedHits : ℚ) / (acc.expectedTotal : ℚ)) * 100

/-- `precision` (score.ts line 376). -/
def Acc.precision (acc : Acc) : ℚ :=
  if acc.returnedTotal = 0 then 0
  else ((acc.expectedHits : ℚ) / (acc.returnedTotal : ℚ)) * 100

/-- `f1` (score.ts line 377). -/
def Acc.f1 (acc : Acc) : ℚ :=
  if acc.recall + acc.precision = 0 then 0
  else (2 * acc.recall * acc.precision) / (acc.recall + acc.precision)

/-- `penaltyPoints` (score.ts lines 378–380). -/
def Acc.penaltyPoints (acc : Acc) : ℚ :=
  (acc.listedFalsePositiveCount : ℚ) * PENALTY_LISTED_FP
    + (acc.unexpectedExtraCount : ℚ) * PENALTY_UNEXPECTED_EXTRA

/-- `scoreRaw` (score.ts line 381). -/
def Acc.scoreRaw (acc : Acc) : ℚ := acc.recall - acc.penaltyPoints

/-- `scoreClamped` (score.ts line 382). -/
def Acc.scoreClamped (acc : Acc) : ℚ := max 0 (min 100 acc.scoreRaw)

/-- `score` (score.ts line 383): the invalid-id override. -/
def Acc.score (acc : Acc) : ℚ :=
  if acc.invalidIdCount > 0 then 0 else acc.scoreClamped

/-- The observable candidate lifecycle calls made by `main`. -/
inductive Event where
  | setupCall (datasetPath : String)
  | searchCall (query : String)
  | cleanupCall
deriving DecidableEq

/-- The dataset path `main` resolves (score.ts line 272), relative form. -/
def datasetPath (d : Dataset) : String :=
  "data/datasets/" ++ d.toStr ++ "/names.csv"

/-- The message of the error thrown on a suite/dataset mismatch
(score.ts line 277). -/
def mismatchMessage (suiteDataset argDataset : Dataset) : String :=
  "Suite dataset mismatch: suite=" ++ suiteDataset.toStr
    ++ ", arg=" ++ argDataset.toStr

/-- The load-then-run pipeline of `main` (score.ts lines 269–424), after
the suite file has been parsed: check the suite's declared dataset against
the requested one, then call `setup`, run every case in order (one
`search` call each), call `cleanup`, and return the lifecycle event trace
together with the final accumulators. The bundled submission module
exports all three lifecycle functions, so the `typeof` guards pass.
A thrown error is the `Except.error` branch. -/
def mainModel (argDataset : Dataset) (suite : TestSuite)
    (candidate : String → CandidateBehavior) (timeoutMs : Nat)
    (validIds : List String) : Except String (List Event × Acc) :=
  if suite.dataset ≠ argDataset then
    .error (mismatchMessage suite.dataset argDataset)
  else
    let events := Event.setupCall (datasetPath argDataset)
      :: (suite.cases.map (fun c => Event.searchCall c.query)
          ++ [Event.cleanupCall])
    let acc := runCases validIds timeoutMs Acc.init
      (suite.cases.map (fun c => (c, candidate c.query)))
    .ok (events, acc)

/-- Modelled from the spec's words, for the refinement comparison of the
normalization claim: remove duplicates from a list, keeping the first
occurrence of each element, given the elements already seen. -/
def dedupFirstAux (seen : List String) : List String → List String
  | [] => []
  | x :: xs =>
    if seen.contains x then dedupFirstAux seen xs
    else x :: dedupFirstAux (x :: seen) xs

/-- Modelled from the spec's words: duplicate removal keeping first
occurrences, starting from nothing seen. -/
def dedupFirst (l : List String) : List String := dedupFirstAux [] l

/-- The candidate's promise settles successfully strictly within the
timeout: the only way `withTimeout` can return `ok`. -/
def settlesWithinTimeout (b : CandidateBehavior) (timeoutMs : Nat) : Prop :=
  ∃ v t, b = CandidateBehavior.resolves v t ∧ t < timeoutMs

section HelperLemmas

/-- Membership in `hitIds`: an expected id that was returned. -/
theorem mem_hitIds {tc : TestCase} {validIds returnedIds : List String}
    {x : String} :
    x ∈ (classify tc validIds returnedIds).hitIds
      ↔ x ∈ tc.expectedIds ∧ x ∈ returnedIds := by
  simp [classify, List.mem_filter]

/-- Membership in `missingIds`: an expected id that was not returned. -/
theorem mem_missingIds {tc : TestCase} {validIds returnedIds : List String}
    {x : String} :
    x ∈ (classify tc validIds returnedIds).missingIds
      ↔ x ∈ tc.expectedIds ∧ x ∉ returnedIds := by
  simp [classify, List.mem_filter]

/-- Membership in `fpHits`: a returned id listed as a false positive. -/
theorem mem_fpHits {tc : TestCase} {validIds returnedIds : List String}
    {x : String} :
    x ∈ (classify tc validIds returnedIds).fpHits
      ↔ x ∈ returnedIds ∧ x ∈ tc.falsePositiveIds := by
  simp [classify, List.mem_filter]

/-- Membership in `invalidIds`: a returned id absent from the dataset. -/
theorem mem_invalidIds {tc : TestCase} {validIds returnedIds : List String}
    {x : String} :
    x ∈ (classify tc validIds returnedIds).invalidIds
      ↔ x ∈ returnedIds ∧ x ∉ validIds := by
  simp [classify, List.mem_filter]

/-- Membership in `extrasUnscored`: a returned valid id that is neither
expected nor a listed false positive. -/
theorem mem_extrasUnscored {tc : TestCase} {validIds returnedIds : List String}
    {x : String} :
    x ∈ (classify tc validIds returnedIds).extrasUnscored
      ↔ x ∈ returnedIds ∧ x ∈ validIds
          ∧ x ∉ tc.expectedIds ∧ x ∉ tc.falsePositiveIds := by
  simp [classify, List.mem_filter, and_assoc]

/-- Splitting a list's length along a Boolean predicate. -/
theorem length_filter_add_length_filter_not (l : List String)
    (p : String → Bool) :
    (l.filter p).length + (l.filter (fun a => !p a)).length = l.length := by
  induction l with
  | nil => rfl
  | cons x xs ih =>
    by_cases h : p x = true <;> simp [List.filter_cons, h] <;> omega

end HelperLemmas

/-- Claim C1: for every test case, the classification of the normalized
returned ids yields exactly: `hitIds` = the expected ids that occur in the
returned ids, `missingIds` = the expected ids that do not, `fpHits` = the
returned ids listed as false positives, `invalidIds` = the returned ids
outside the dataset's valid-id set, and `extrasUnscored` = the returned
ids that are valid but neither expected nor listed false positives. -/
theorem claim_C1_classification (tc : TestCase)
    (validIds returnedIds : List String) (x : String) :
    (x ∈ (classify tc validIds returnedIds).hitIds
      ↔ x ∈ tc.expectedIds ∧ x ∈ returnedIds)
  ∧ (x ∈ (classify tc validIds returnedIds).missingIds
      ↔ x ∈ tc.expectedIds ∧ x ∉ returnedIds)
  ∧ (x ∈ (classify tc validIds returnedIds).fpHits
      ↔ x ∈ returnedIds ∧ x ∈ tc.falsePositiveIds)
  ∧ (x ∈ (classify tc validIds returnedIds).invalidIds
      ↔ x ∈ returnedIds ∧ x ∉ validIds)
  ∧ (x ∈ (classify tc validIds returnedIds).extrasUnscored
      ↔ x ∈ returnedIds ∧ x ∈ validIds
          ∧ x ∉ tc.expectedIds ∧ x ∉ tc.falsePositiveIds) :=
  ⟨mem_hitIds, mem_missingIds, mem_fpHits, mem_invalidIds, mem_extrasUnscored⟩

/-- Claim C2: the final score is `0` whenever `invalidIdCount > 0`, and
otherwise the clamp to `[0, 100]` of
`recall − (listedFalsePositiveCount * 0.02 + unexpectedExtraCount * 0.05)`;
a single invalid id zeroes the score regardless of recall and precision. -/
theorem claim_C2_score_formula (acc : Acc) :
    acc.score
      = (if 0 < acc.invalidIdCount then 0
         else max 0 (min 100 (acc.recall
           - ((acc.listedFalsePositiveCount : ℚ) * 0.02
              + (acc.unexpectedExtraCount : ℚ) * 0.05))))
  ∧ (0 < acc.invalidIdCount → acc.score = 0) := by
  refine ⟨rfl, fun h => ?_⟩
  simp [Acc.score, h]

/-- Witness for claim C2 at a run with one invalid id. -/
theorem claim_C2_score_formula_witness :
    (Acc.mk 3 3 0 0 1 4 0).score = 0 :=
  (claim_C2_score_formula (Acc.mk 3 3 0 0 1 4 0)).2 (by decide)

/-- Claim C4: a case passes iff `missingIds`, `fpHits`, `extrasUnscored`
and `invalidIds` are all empty and there is no runtime error; in
particular any case with a runtime error fails, whatever its id lists. -/
theorem claim_C4_pass_predicate :
    (∀ (cl : Classification) (runtimeError : Option String),
      casePass cl runtimeError = true
        ↔ cl.missingIds = [] ∧ cl.fpHits = [] ∧ cl.extrasUnscored = []
            ∧ cl.invalidIds = [] ∧ runtimeError = none)
  ∧ (∀ (cl : Classification) (msg : String),
      casePass cl (some msg) = false) := by
  constructor
  · intro cl runtimeError
    simp [casePass, List.length_eq_zero, Option.isNone_iff_eq_none,
      and_assoc]
  · intro cl msg
    simp [casePass]

/-- Claim C6: the finalized metrics satisfy exactly the spec's formulas
for recall, precision and F1, including the zero-denominator branches. -/
theorem claim_C6_metric_formulas (acc : Acc) :
    (acc.expectedTotal = 0 → acc.recall = 100)
  ∧ (acc.expectedTotal ≠ 0 →
      acc.recall = ((acc.expectedHits : ℚ) / (acc.expectedTotal : ℚ)) * 100)
  ∧ (acc.returnedTotal = 0 → acc.precision = 0)
  ∧ (acc.returnedTotal ≠ 0 →
      acc.precision = ((acc.expectedHits : ℚ) / (acc.returnedTotal : ℚ)) * 100)
  ∧ (acc.recall + acc.precision = 0 → acc.f1 = 0)
  ∧ (acc.recall + acc.precision ≠ 0 →
      acc.f1 = (2 * acc.recall * acc.precision)
        / (acc.recall + acc.precision)) := by
  refine ⟨fun h => ?_, fun h => ?_, fun h => ?_, fun h => ?_, fun h => ?_,
    fun h => ?_⟩
  · simp [Acc.recall, h]
  · simp [Acc.recall, h]
  · simp [Acc.precision, h]
  · simp [Acc.precision, h]
  · simp [Acc.f1, h]
  · simp [Acc.f1, h]

/-- Witness for claim C6 at the all-zero accumulators: recall is 100,
precision is 0. -/
theorem claim_C6_metric_formulas_witness :
    Acc.init.recall = 100 ∧ Acc.init.precision = 0 :=
  ⟨(claim_C6_metric_formulas Acc.init).1 rfl,
   (claim_C6_metric_formulas Acc.init).2.2.1 rfl⟩

/-- Claim C3: whenever the candidate's `search` call throws/rejects or
fails to settle within the timeout, the case outcome is an empty returned
list with the runtime error recorded, the case never passes (so it is not
counted in `passCases`), and the loop simply proceeds to the remaining
cases. -/
theorem claim_C3_error_recovery (b : CandidateBehavior) (timeoutMs : Nat)
    (h : ¬ settlesWithinTimeout b timeoutMs) :
    (runSearch b timeoutMs).1 = []
  ∧ (runSearch b timeoutMs).2.isSome = true
  ∧ (∀ (tc : TestCase) (validIds : List String),
      casePass (classify tc validIds (runSearch b timeoutMs).1)
        (runSearch b timeoutMs).2 = false)
  ∧ (∀ (validIds : List String) (acc : Acc) (tc : TestCase)
        (rest : List (TestCase × CandidateBehavior)),
      runCases validIds timeoutMs acc ((tc, b) :: rest)
        = runCases validIds timeoutMs
            (stepCase validIds timeoutMs acc tc b) rest)
  ∧ (∀ (validIds : List String) (acc : Acc) (tc : TestCase),
      (stepCase validIds timeoutMs acc tc b).passCases = acc.passCases) := by
  obtain ⟨msg, hmsg⟩ : ∃ msg, withTimeout b timeoutMs = .error msg := by
    rcases b with ⟨v, t⟩ | ⟨m, t⟩ | _
    · rcases Nat.lt_or_ge t timeoutMs with ht | ht
      · exact absurd ⟨v, t, rfl, ht⟩ h
      · exact ⟨timeoutMessage timeoutMs, by
          simp [withTimeout, Nat.not_lt.mpr ht]⟩
    · rcases Nat.lt_or_ge t timeoutMs with ht | ht
      · exact ⟨m, by simp [withTimeout, ht]⟩
      · exact ⟨timeoutMessage timeoutMs, by
          simp [withTimeout, Nat.not_lt.mpr ht]⟩
    · exact ⟨timeoutMessage timeoutMs, rfl⟩
  have hrun : runSearch b timeoutMs = ([], some msg) := by
    simp [runSearch, hmsg]
  refine ⟨by simp [hrun], by simp [hrun], fun tc validIds => ?_,
    fun validIds acc tc rest => rfl, fun validIds acc tc => ?_⟩
  · simp [hrun, casePass]
  · simp [stepCase, hrun, casePass]

/-- Witness for claim C3: a candidate that never settles, under a 2000 ms
timeout, on a case expecting two ids. -/
theorem claim_C3_error_recovery_witness :
    (runSearch CandidateBehavior.hangs 2000).1 = []
  ∧ (runSearch CandidateBehavior.hangs 2000).2.isSome = true
  ∧ (∀ (tc : TestCase) (validIds : List String),
      casePass (classify tc validIds (runSearch CandidateBehavior.hangs 2000).1)
        (runSearch CandidateBehavior.hangs 2000).2 = false)
  ∧ (∀ (validIds : List String) (acc : Acc) (tc : TestCase)
        (rest : List (TestCase × CandidateBehavior)),
      runCases validIds 2000 acc ((tc, CandidateBehavior.hangs) :: rest)
        = runCases validIds 2000
            (stepCase validIds 2000 acc tc CandidateBehavior.hangs) rest)
  ∧ (∀ (validIds : List String) (acc : Acc) (tc : TestCase),
      (stepCase validIds 2000 acc tc CandidateBehavior.hangs).passCases
        = acc.passCases) :=
  claim_C3_error_recovery CandidateBehavior.hangs 2000
    (by simp [settlesWithinTimeout])

/-- The normalization loop and the spec's trim-filter-dedup pipeline agree,
for any set of already-seen ids. -/
theorem toUniqueIdsAux_eq_dedupFirstAux (l : List String)
    (seen : List String) :
    toUniqueIdsAux seen l
      = dedupFirstAux seen ((l.map trimStr).filter (fun s => s != "")) := by
  induction l generalizing seen with
  | nil => rfl
  | cons v rest ih =>
    by_cases h : trimStr v = ""
    · simp [toUniqueIdsAux, List.filter_cons, h, ih]
    · by_cases h2 : seen.contains (trimStr v)
      · simp [toUniqueIdsAux, dedupFirstAux, List.filter_cons, h, h2, ih]
      · simp [toUniqueIdsAux, dedupFirstAux, List.filter_cons, h, h2, ih]

/-- Every id emitted by the normalization loop was not already seen. -/
theorem not_mem_seen_of_mem_toUniqueIdsAux {x : String} :
    ∀ {l seen : List String}, x ∈ toUniqueIdsAux seen l → x ∉ seen := by
  intro l
  induction l with
  | nil => intro seen hx; simp [toUniqueIdsAux] at hx
  | cons v rest ih =>
    intro seen hx
    by_cases h : (trimStr v == "" || seen.contains (trimStr v)) = true
    · rw [toUniqueIdsAux, if_pos h] at hx
      exact ih hx
    · rw [toUniqueIdsAux, if_neg h] at hx
      rcases List.mem_cons.mp hx with hx | hx
      · subst hx
        intro hxseen
        simp [hxseen] at h
      · intro hxseen
        exact ih hx (by simp [hxseen])

/-- The normalization loop emits no duplicates. -/
theorem toUniqueIdsAux_nodup :
    ∀ (l seen : List String), (toUniqueIdsAux seen l).Nodup := by
  intro l
  induction l with
  | nil => intro seen; simp [toUniqueIdsAux]
  | cons v rest ih =>
    intro seen
    by_cases h : (trimStr v == "" || seen.contains (trimStr v)) = true
    · rw [toUniqueIdsAux, if_pos h]
      exact ih seen
    · rw [toUniqueIdsAux, if_neg h]
      refine List.nodup_cons.mpr ⟨fun hmem => ?_, ih _⟩
      exact not_mem_seen_of_mem_toUniqueIdsAux hmem (by simp)

/-- The normalization loop's output is a subsequence of the trimmed,
blank-free element list: survivors keep their insertion order. -/
theorem toUniqueIdsAux_sublist (l : List String) (seen : List String) :
    List.Sublist (toUniqueIdsAux seen l)
      ((l.map trimStr).filter (fun s => s != "")) := by
  induction l generalizing seen with
  | nil => simp [toUniqueIdsAux]
  | cons v rest ih =>
    by_cases h : trimStr v = ""
    · rw [toUniqueIdsAux]
      simp only [List.map_cons, List.filter_cons, h]
      simpa [h] using ih seen
    · by_cases h2 : trimStr v ∈ seen
      · rw [toUniqueIdsAux, if_pos (by simp [h2])]
        simp only [List.map_cons, List.filter_cons]
        rw [if_pos (by simp [h])]
        exact (ih seen).cons _
      · rw [toUniqueIdsAux, if_neg (by simp [h, h2])]
        simp only [List.map_cons, List.filter_cons]
        rw [if_pos (by simp [h])]
        exact (ih _).cons₂ _

/-- Claim C5: normalization returns `[]` for a non-sequence, and otherwise
trims each stringified element, drops blanks, and removes duplicates
keeping first occurrences; the survivors keep their insertion order (the
output is a duplicate-free subsequence of the trimmed, blank-free list). -/
theorem claim_C5_normalization :
    toUniqueIds none = []
  ∧ (∀ l : List String,
      toUniqueIds (some l)
        = dedupFirst ((l.map trimStr).filter (fun s => s != "")))
  ∧ (∀ l : List String, (toUniqueIds (some l)).Nodup)
  ∧ (∀ l : List String,
      List.Sublist (toUniqueIds (some l))
        ((l.map trimStr).filter (fun s => s != ""))) :=
  ⟨rfl, fun l => toUniqueIdsAux_eq_dedupFirstAux l [],
   fun l => toUniqueIdsAux_nodup l [], fun l => toUniqueIdsAux_sublist l []⟩

/-- Claim C7: `p95Ms` is the entry of the ascending sort of the samples at
index `floor((count − 1) * 0.95)` (any ascending rearrangement gives the
same value), it is `0` for no samples, and for the two samples `[10, 30]`
the index is `0` and the value is the smaller sample, `10`. -/
theorem claim_C7_p95 (values sortedValues : List ℚ)
    (hs : sortedValues.Sorted (· ≤ ·)) (hp : sortedValues.Perm values) :
    percentile values 0.95
      = sortedValues.getD (⌊((values.length : ℚ) - 1) * 0.95⌋).toNat 0
  ∧ percentile [] 0.95 = 0
  ∧ percentile [10, 30] 0.95 = 10 := by
  refine ⟨?_, by norm_num [percentile],
    by norm_num [percentile, List.insertionSort, List.orderedInsert]⟩
  rcases eq_or_ne values [] with hnil | hnil
  · subst hnil
    have : sortedValues = [] := hp.eq_nil
    subst this
    simp [percentile]
  · have hlen : values.length ≠ 0 := by
      simpa [List.length_eq_zero] using hnil
    have hsort : List.insertionSort (· ≤ ·) values = sortedValues :=
      List.eq_of_perm_of_sorted
        ((List.perm_insertionSort _ values).trans hp.symm)
        (List.sorted_insertionSort _ values) hs
    rw [percentile, if_neg hlen, hsort]
    show sortedValues.getD (⌊((sortedValues.length : ℚ) - 1) * 0.95⌋).toNat 0
      = sortedValues.getD (⌊((values.length : ℚ) - 1) * 0.95⌋).toNat 0
    rw [hp.length_eq]

/-- Witness for claim C7 at the samples `[10, 30]` (already ascending). -/
theorem claim_C7_p95_witness :
    percentile [10, 30] 0.95
      = [(10 : ℚ), 30].getD (⌊(((2 : Nat) : ℚ) - 1) * 0.95⌋).toNat 0
  ∧ percentile [] 0.95 = 0
  ∧ percentile [10, 30] 0.95 = 10 :=
  claim_C7_p95 [10, 30] [10, 30]
    (by norm_num [List.sorted_cons]) (List.Perm.refl _)

/-- Per case, the hit list is no longer than the expected list. -/
theorem hitIds_length_le_expected (tc : TestCase)
    (validIds returnedIds : List String) :
    (classify tc validIds returnedIds).hitIds.length
      ≤ tc.expectedIds.length :=
  List.length_filter_le _ _

/-- Per case, when the expected ids are duplicate-free the hit list is no
longer than the returned list. -/
theorem hitIds_length_le_returned (tc : TestCase)
    (validIds returnedIds : List String) (hnd : tc.expectedIds.Nodup) :
    (classify tc validIds returnedIds).hitIds.length
      ≤ returnedIds.length := by
  have hsub : (classify tc validIds returnedIds).hitIds ⊆ returnedIds := by
    intro x hx
    exact (mem_hitIds.mp hx).2
  exact ((hnd.filter _).subperm hsub).length_le

/-- The two counting invariants are preserved by one case step, provided
the case's expected ids are duplicate-free. -/
theorem stepCase_invariant (validIds : List String) (timeoutMs : Nat)
    (acc : Acc) (tc : TestCase) (b : CandidateBehavior)
    (hnd : tc.expectedIds.Nodup)
    (h1 : acc.expectedHits ≤ acc.expectedTotal)
    (h2 : acc.expectedHits ≤ acc.returnedTotal) :
    (stepCase validIds timeoutMs acc tc b).expectedHits
      ≤ (stepCase validIds timeoutMs acc tc b).expectedTotal
  ∧ (stepCase validIds timeoutMs acc tc b).expectedHits
      ≤ (stepCase validIds timeoutMs acc tc b).returnedTotal := by
  rcases hc : runSearch b timeoutMs with ⟨returnedIds, runtimeError⟩
  constructor
  · show acc.expectedHits + _ ≤ acc.expectedTotal + _
    have := hitIds_length_le_expected tc validIds (runSearch b timeoutMs).1
    omega
  · show acc.expectedHits + _ ≤ acc.returnedTotal + _
    have := hitIds_length_le_returned tc validIds
      (runSearch b timeoutMs).1 hnd
    omega

/-- The counting invariants hold after any run segment whose cases all
have duplicate-free expected ids. -/
theorem runCases_invariant (validIds : List String) (timeoutMs : Nat) :
    ∀ (l : List (TestCase × CandidateBehavior)) (acc : Acc),
      (∀ p ∈ l, p.1.expectedIds.Nodup) →
      acc.expectedHits ≤ acc.expectedTotal →
      acc.expectedHits ≤ acc.returnedTotal →
      (runCases validIds timeoutMs acc l).expectedHits
        ≤ (runCases validIds timeoutMs acc l).expectedTotal
      ∧ (runCases validIds timeoutMs acc l).expectedHits
        ≤ (runCases validIds timeoutMs acc l).returnedTotal := by
  intro l
  induction l with
  | nil => intro acc _ h1 h2; exact ⟨h1, h2⟩
  | cons p rest ih =>
    intro acc h h1 h2
    rcases p with ⟨tc, b⟩
    have hstep := stepCase_invariant validIds timeoutMs acc tc b
      (h _ (List.mem_cons_self _ _)) h1 h2
    exact ih _ (fun q hq => h q (List.mem_cons_of_mem _ hq))
      hstep.1 hstep.2

/-- Recall and precision bounds derived from the counting invariants. -/
theorem metric_bounds (acc : Acc)
    (h1 : acc.expectedHits ≤ acc.expectedTotal)
    (h2 : acc.expectedHits ≤ acc.returnedTotal) :
    (0 ≤ acc.recall ∧ acc.recall ≤ 100)
  ∧ (acc.expectedTotal = 0 → acc.recall = 100)
  ∧ (acc.returnedTotal = 0 → acc.precision = 0)
  ∧ (acc.returnedTotal ≠ 0 → 0 ≤ acc.precision ∧ acc.precision ≤ 100) := by
  refine ⟨?_, fun h => by simp [Acc.recall, h], fun h => by
    simp [Acc.precision, h], fun h => ?_⟩
  · rcases eq_or_ne acc.expectedTotal 0 with h | h
    · simp [Acc.recall, h]
    · rw [Acc.recall, if_neg h]
      have hpos : (0 : ℚ) < (acc.expectedTotal : ℚ) := by
        exact_mod_cast Nat.pos_of_ne_zero h
      have hdiv0 : (0 : ℚ) ≤ (acc.expectedHits : ℚ) / (acc.expectedTotal : ℚ) :=
        div_nonneg (by positivity) (le_of_lt hpos)
      have hdiv1 : (acc.expectedHits : ℚ) / (acc.expectedTotal : ℚ) ≤ 1 := by
        rw [div_le_one hpos]
        exact_mod_cast h1
      constructor
      · positivity
      · calc (acc.expectedHits : ℚ) / (acc.expectedTotal : ℚ) * 100
            ≤ 1 * 100 := by
              exact mul_le_mul_of_nonneg_right hdiv1 (by norm_num)
          _ = 100 := by norm_num
  · rw [Acc.precision, if_neg h]
    have hpos : (0 : ℚ) < (acc.returnedTotal : ℚ) := by
      exact_mod_cast Nat.pos_of_ne_zero h
    have hdiv0 : (0 : ℚ) ≤ (acc.expectedHits : ℚ) / (acc.returnedTotal : ℚ) :=
      div_nonneg (by positivity) (le_of_lt hpos)
    have hdiv1 : (acc.expectedHits : ℚ) / (acc.returnedTotal : ℚ) ≤ 1 := by
      rw [div_le_one hpos]
      exact_mod_cast h2
    constructor
    · positivity
    · calc (acc.expectedHits : ℚ) / (acc.returnedTotal : ℚ) * 100
          ≤ 1 * 100 := by
            exact mul_le_mul_of_nonneg_right hdiv1 (by norm_num)
        _ = 100 := by norm_num

/-- Claim C8: over a suite whose cases have duplicate-free expected ids,
after every case (every prefix of the case list) the accumulators satisfy
`expectedHits ≤ expectedTotal` and `expectedHits ≤ returnedTotal`, so
recall lies in `[0, 100]` (and is `100` when `expectedTotal = 0`), and
precision is `0` when `returnedTotal = 0` and lies in `[0, 100]`
otherwise. -/
theorem claim_C8_metric_invariants (validIds : List String)
    (timeoutMs : Nat) (suiteCases : List (TestCase × CandidateBehavior))
    (hnd : ∀ p ∈ suiteCases, p.1.expectedIds.Nodup) (n : Nat) :
    (runCases validIds timeoutMs Acc.init (suiteCases.take n)).expectedHits
      ≤ (runCases validIds timeoutMs Acc.init (suiteCases.take n)).expectedTotal
  ∧ (runCases validIds timeoutMs Acc.init (suiteCases.take n)).expectedHits
      ≤ (runCases validIds timeoutMs Acc.init (suiteCases.take n)).returnedTotal
  ∧ (0 ≤ (runCases validIds timeoutMs Acc.init (suiteCases.take n)).recall
      ∧ (runCases validIds timeoutMs Acc.init (suiteCases.take n)).recall ≤ 100)
  ∧ ((runCases validIds timeoutMs Acc.init (suiteCases.take n)).expectedTotal = 0 →
      (runCases validIds timeoutMs Acc.init (suiteCases.take n)).recall = 100)
  ∧ ((runCases validIds timeoutMs Acc.init (suiteCases.take n)).returnedTotal = 0 →
      (runCases validIds timeoutMs Acc.init (suiteCases.take n)).precision = 0)
  ∧ ((runCases validIds timeoutMs Acc.init (suiteCases.take n)).returnedTotal ≠ 0 →
      0 ≤ (runCases validIds timeoutMs Acc.init (suiteCases.take n)).precision
      ∧ (runCases validIds timeoutMs Acc.init (suiteCases.take n)).precision ≤ 100) := by
  have hinv := runCases_invariant validIds timeoutMs (suiteCases.take n)
    Acc.init
    (fun p hp => hnd p (List.mem_of_mem_take hp))
    (Nat.le_refl 0) (Nat.le_refl 0)
  have hb := metric_bounds _ hinv.1 hinv.2
  exact ⟨hinv.1, hinv.2, hb.1, hb.2.1, hb.2.2.1, hb.2.2.2⟩

/-- Witness for claim C8: one case expecting `r1`, whose candidate returns
`["r1"]` instantly, taken in full. -/
theorem claim_C8_metric_invariants_witness :
    (runCases ["r1", "r2"] 2000 Acc.init
      ([(TestCase.mk "c1" Dataset.small "q" ["r1"] [] [] "",
         CandidateBehavior.resolves (some ["r1"]) 0)].take 1)).expectedHits
      ≤ (runCases ["r1", "r2"] 2000 Acc.init
      ([(TestCase.mk "c1" Dataset.small "q" ["r1"] [] [] "",
         CandidateBehavior.resolves (some ["r1"]) 0)].take 1)).expectedTotal
  ∧ (runCases ["r1", "r2"] 2000 Acc.init
      ([(TestCase.mk "c1" Dataset.small "q" ["r1"] [] [] "",
         CandidateBehavior.resolves (some ["r1"]) 0)].take 1)).expectedHits
      ≤ (runCases ["r1", "r2"] 2000 Acc.init
      ([(TestCase.mk "c1" Dataset.small "q" ["r1"] [] [] "",
         CandidateBehavior.resolves (some ["r1"]) 0)].take 1)).returnedTotal
  ∧ (0 ≤ (runCases ["r1", "r2"] 2000 Acc.init
      ([(TestCase.mk "c1" Dataset.small "q" ["r1"] [] [] "",
         CandidateBehavior.resolves (some ["r1"]) 0)].take 1)).recall
      ∧ (runCases ["r1", "r2"] 2000 Acc.init
      ([(TestCase.mk "c1" Dataset.small "q" ["r1"] [] [] "",
         CandidateBehavior.resolves (some ["r1"]) 0)].take 1)).recall ≤ 100)
  ∧ ((runCases ["r1", "r2"] 2000 Acc.init
      ([(TestCase.mk "c1" Dataset.small "q" ["r1"] [] [] "",
         CandidateBehavior.resolves (some ["r1"]) 0)].take 1)).expectedTotal = 0 →
      (runCases ["r1", "r2"] 2000 Acc.init
      ([(TestCase.mk "c1" Dataset.small "q" ["r1"] [] [] "",
         CandidateBehavior.resolves (some ["r1"]) 0)].take 1)).recall = 100)
  ∧ ((runCases ["r1", "r2"] 2000 Acc.init
      ([(TestCase.mk "c1" Dataset.small "q" ["r1"] [] [] "",
         CandidateBehavior.resolves (some ["r1"]) 0)].take 1)).returnedTotal = 0 →
      (runCases ["r1", "r2"] 2000 Acc.init
      ([(TestCase.mk "c1" Dataset.small "q" ["r1"] [] [] "",
         CandidateBehavior.resolves (some ["r1"]) 0)].take 1)).precision = 0)
  ∧ ((runCases ["r1", "r2"] 2000 Acc.init
      ([(TestCase.mk "c1" Dataset.small "q" ["r1"] [] [] "",
         CandidateBehavior.resolves (some ["r1"]) 0)].take 1)).returnedTotal ≠ 0 →
      0 ≤ (runCases ["r1", "r2"] 2000 Acc.init
      ([(TestCase.mk "c1" Dataset.small "q" ["r1"] [] [] "",
         CandidateBehavior.resolves (some ["r1"]) 0)].take 1)).precision
      ∧ (runCases ["r1", "r2"] 2000 Acc.init
      ([(TestCase.mk "c1" Dataset.small "q" ["r1"] [] [] "",
         CandidateBehavior.resolves (some ["r1"]) 0)].take 1)).precision ≤ 100) :=
  claim_C8_metric_invariants ["r1", "r2"] 2000
    [(TestCase.mk "c1" Dataset.small "q" ["r1"] [] [] "",
      CandidateBehavior.resolves (some ["r1"]) 0)]
    (by decide) 1

/-- One case step never reads the case's `dataset` field. -/
theorem stepCase_ignores_case_dataset (validIds : List String)
    (timeoutMs : Nat) (acc : Acc) (tc : TestCase) (b : CandidateBehavior)
    (d : Dataset) :
    stepCase validIds timeoutMs acc { tc with dataset := d } b
      = stepCase validIds timeoutMs acc tc b := rfl

/-- The case loop never reads any case's `dataset` field. -/
theorem runCases_ignores_case_dataset (validIds : List String)
    (timeoutMs : Nat) (candidate : String → CandidateBehavior)
    (d : Dataset) :
    ∀ (l : List TestCase) (acc : Acc),
      runCases validIds timeoutMs acc
        ((l.map (fun c => { c with dataset := d })).map
          (fun c => (c, candidate c.query)))
        = runCases validIds timeoutMs acc
            (l.map (fun c => (c, candidate c.query))) := by
  intro l
  induction l with
  | nil => intro acc; rfl
  | cons c rest ih =>
    intro acc
    simp only [List.map_cons, runCases]
    rw [stepCase_ignores_case_dataset, ih]

/-- Claim C9: when the suite's declared dataset differs from the requested
one, the run fails at load time with the mismatch error — no lifecycle
event (setup, search, cleanup) is produced; and the per-case `dataset`
fields are never consulted: rewriting them all changes nothing about the
run's outcome. -/
theorem claim_C9_dataset_mismatch (argDataset : Dataset)
    (suite : TestSuite) (candidate : String → CandidateBehavior)
    (timeoutMs : Nat) (validIds : List String) :
    (suite.dataset ≠ argDataset →
      mainModel argDataset suite candidate timeoutMs validIds
        = .error (mismatchMessage suite.dataset argDataset))
  ∧ (∀ d : Dataset,
      mainModel argDataset
        { suite with cases := suite.cases.map (fun c => { c with dataset := d }) }
        candidate timeoutMs validIds
      = mainModel argDataset suite candidate timeoutMs validIds) := by
  constructor
  · intro h
    simp [mainModel, h]
  · intro d
    rcases eq_or_ne suite.dataset argDataset with h | h
    · rw [mainModel, mainModel]
      rw [if_neg (by simpa using h), if_neg (by simpa using h)]
      rw [runCases_ignores_case_dataset]
      simp [List.map_map, Function.comp]
    · simp [mainModel, h]

/-- Witness for claim C9: requesting the large dataset with a suite
declared for the small one fails with the mismatch message. -/
theorem claim_C9_dataset_mismatch_witness :
    mainModel Dataset.large
      (TestSuite.mk "public suite" Dataset.small "public" 42 [])
      (fun _ => CandidateBehavior.hangs) 2000 []
      = .error (mismatchMessage Dataset.small Dataset.large) :=
  (claim_C9_dataset_mismatch Dataset.large
    (TestSuite.mk "public suite" Dataset.small "public" 42 [])
    (fun _ => CandidateBehavior.hangs) 2000 []).1 (by decide)

/-- Two duplicate-free lists with the same members have the same length. -/
theorem length_eq_of_nodup_of_mem_iff {l1 l2 : List String}
    (h1 : l1.Nodup) (h2 : l2.Nodup) (hm : ∀ a, a ∈ l1 ↔ a ∈ l2) :
    l1.length = l2.length :=
  (List.Subperm.antisymm (h1.subperm fun a ha => (hm a).mp ha)
    (h2.subperm fun a ha => (hm a).mpr ha)).length_eq

/-- Claim C10: when a case's expected and false-positive id lists are
duplicate-free, disjoint, and contained in the valid-id set, the
classification partitions the normalized returned ids — each returned id
lies in exactly one of `hitIds`, `fpHits`, `extrasUnscored`, `invalidIds`
— and the lengths add up to the number of returned ids. -/
theorem claim_C10_partition (tc : TestCase) (validIds : List String)
    (raw : Option (List String))
    (hnE : tc.expectedIds.Nodup) (hnF : tc.falsePositiveIds.Nodup)
    (hdisj : ∀ x ∈ tc.expectedIds, x ∉ tc.falsePositiveIds)
    (hEV : ∀ x ∈ tc.expectedIds, x ∈ validIds)
    (hFV : ∀ x ∈ tc.falsePositiveIds, x ∈ validIds) :
    (∀ x ∈ toUniqueIds raw,
        (x ∈ (classify tc validIds (toUniqueIds raw)).hitIds
          ∨ x ∈ (classify tc validIds (toUniqueIds raw)).fpHits
          ∨ x ∈ (classify tc validIds (toUniqueIds raw)).extrasUnscored
          ∨ x ∈ (classify tc validIds (toUniqueIds raw)).invalidIds)
      ∧ ¬(x ∈ (classify tc validIds (toUniqueIds raw)).hitIds
            ∧ x ∈ (classify tc validIds (toUniqueIds raw)).fpHits)
      ∧ ¬(x ∈ (classify tc validIds (toUniqueIds raw)).hitIds
            ∧ x ∈ (classify tc validIds (toUniqueIds raw)).extrasUnscored)
      ∧ ¬(x ∈ (classify tc validIds (toUniqueIds raw)).hitIds
            ∧ x ∈ (classify tc validIds (toUniqueIds raw)).invalidIds)
      ∧ ¬(x ∈ (classify tc validIds (toUniqueIds raw)).fpHits
            ∧ x ∈ (classify tc validIds (toUniqueIds raw)).extrasUnscored)
      ∧ ¬(x ∈ (classify tc validIds (toUniqueIds raw)).fpHits
            ∧ x ∈ (classify tc validIds (toUniqueIds raw)).invalidIds)
      ∧ ¬(x ∈ (classify tc validIds (toUniqueIds raw)).extrasUnscored
            ∧ x ∈ (classify tc validIds (toUniqueIds raw)).invalidIds))
  ∧ (toUniqueIds raw).length
      = (classify tc validIds (toUniqueIds raw)).hitIds.length
        + (classify tc validIds (toUniqueIds raw)).fpHits.length
        + (classify tc validIds (toUniqueIds raw)).extrasUnscored.length
        + (classify tc validIds (toUniqueIds raw)).invalidIds.length := by
  have hR : (toUniqueIds raw).Nodup := by
    cases raw with
    | none => simp [toUniqueIds]
    | some l => exact toUniqueIdsAux_nodup l []
  set R := toUniqueIds raw with hRdef
  constructor
  · intro x hx
    by_cases hv : x ∈ validIds <;> by_cases hf : x ∈ tc.falsePositiveIds <;>
      by_cases he : x ∈ tc.expectedIds <;>
      simp only [mem_hitIds, mem_fpHits, mem_extrasUnscored,
        mem_invalidIds] <;>
      first
      | exact absurd hf (hdisj x he)
      | exact absurd (hEV x he) hv
      | exact absurd (hFV x hf) hv
      | tauto
  · have s1 : (R.filter (fun id => validIds.contains id)).length
        + (R.filter (fun id => !validIds.contains id)).length
        = R.length :=
      length_filter_add_length_filter_not R _
    have e1 : (R.filter (fun id => validIds.contains id)).filter
          (fun id => tc.falsePositiveIds.contains id)
        = R.filter (fun id => tc.falsePositiveIds.contains id) := by
      rw [List.filter_filter]
      refine List.filter_congr ?_
      intro a _
      by_cases hf : a ∈ tc.falsePositiveIds
      · simp [hf, hFV a hf]
      · simp [hf]
    have s2 : (R.filter (fun id => tc.falsePositiveIds.contains id)).length
        + ((R.filter (fun id => validIds.contains id)).filter
            (fun id => !tc.falsePositiveIds.contains id)).length
        = (R.filter (fun id => validIds.contains id)).length := by
      rw [← e1]
      exact length_filter_add_length_filter_not _ _
    have e2 : ((R.filter (fun id => validIds.contains id)).filter
          (fun id => !tc.falsePositiveIds.contains id)).filter
            (fun id => tc.expectedIds.contains id)
        = R.filter (fun id => tc.expectedIds.contains id) := by
      rw [List.filter_filter, List.filter_filter]
      refine List.filter_congr ?_
      intro a _
      by_cases he : a ∈ tc.expectedIds
      · simp [he, hEV a he, hdisj a he]
      · simp [he]
    have e3 : ((R.filter (fun id => validIds.contains id)).filter
          (fun id => !tc.falsePositiveIds.contains id)).filter
            (fun id => !tc.expectedIds.contains id)
        = R.filter (fun id =>
            validIds.contains id
              && !tc.expectedIds.contains id
              && !tc.falsePositiveIds.contains id) := by
      rw [List.filter_filter, List.filter_filter]
      refine List.filter_congr ?_
      intro a _
      by_cases hv : a ∈ validIds <;> by_cases hf : a ∈ tc.falsePositiveIds <;>
        by_cases he : a ∈ tc.expectedIds <;> simp [hv, hf, he]
    have s3 : (R.filter (fun id => tc.expectedIds.contains id)).length
        + (R.filter (fun id =>
            validIds.contains id
              && !tc.expectedIds.contains id
              && !tc.falsePositiveIds.contains id)).length
        = ((R.filter (fun id => validIds.contains id)).filter
            (fun id => !tc.falsePositiveIds.contains id)).length := by
      rw [← e2, ← e3]
      exact length_filter_add_length_filter_not _ _
    have hhit : (tc.expectedIds.filter (fun id => R.contains id)).length
        = (R.filter (fun id => tc.expectedIds.contains id)).length := by
      refine length_eq_of_nodup_of_mem_iff (hnE.filter _) (hR.filter _) ?_
      intro a
      simp only [List.mem_filter]
      constructor
      · rintro ⟨ha, hb⟩
        exact ⟨by simpa using hb, by simpa using ha⟩
      · rintro ⟨ha, hb⟩
        exact ⟨by simpa using hb, by simpa using ha⟩
    show R.length
      = (tc.expectedIds.filter (fun id => R.contains id)).length
        + (R.filter (fun id => tc.falsePositiveIds.contains id)).length
        + (R.filter (fun id =>
            validIds.contains id
              && !tc.expectedIds.contains id
              && !tc.falsePositiveIds.contains id)).length
        + (R.filter (fun id => !validIds.contains id)).length
    omega

/-- Witness for claim C10 at the spec's first scenario: valid ids
`1..5`, expected `[1, 2]`, listed false positive `[3]`, returned
`[1, 3, 4, 9]`: the four classes (`[1]`, `[3]`, `[4]`, `[9]`) partition
the four returned ids. -/
theorem claim_C10_partition_witness :
    (toUniqueIds (some ["1", "3", "4", "9"])).length
      = (classify (TestCase.mk "case-1" Dataset.small "q" ["1", "2"] ["3"] [] "")
          ["1", "2", "3", "4", "5"]
          (toUniqueIds (some ["1", "3", "4", "9"]))).hitIds.length
        + (classify (TestCase.mk "case-1" Dataset.small "q" ["1", "2"] ["3"] [] "")
          ["1", "2", "3", "4", "5"]
          (toUniqueIds (some ["1", "3", "4", "9"]))).fpHits.length
        + (classify (TestCase.mk "case-1" Dataset.small "q" ["1", "2"] ["3"] [] "")
          ["1", "2", "3", "4", "5"]
          (toUniqueIds (some ["1", "3", "4", "9"]))).extrasUnscored.length
        + (classify (TestCase.mk "case-1" Dataset.small "q" ["1", "2"] ["3"] [] "")
          ["1", "2", "3", "4", "5"]
          (toUniqueIds (some ["1", "3", "4", "9"]))).invalidIds.length :=
  (claim_C10_partition
    (TestCase.mk "case-1" Dataset.small "q" ["1", "2"] ["3"] [] "")
    ["1", "2", "3", "4", "5"] (some ["1", "3", "4", "9"])
    (by decide) (by decide) (by decide) (by decide) (by decide)).2

end Namessake
